import Mathlib

/-!
Shallow embedding of the bridge-plan extraction pipeline
(`tool.py`: `extract_title_text_from_pdf`, `filter_target_section`;
`main.py`: the per-document batch loop), together with proofs of the
specified properties.  Strings are modelled over their character lists;
the Python `re` substitutions are embedded as left-to-right, leftmost,
non-overlapping scan-and-substitute passes with hand-compiled matchers
for each concrete pattern (ASCII fragment of Python semantics).
-/

namespace BridgePlans

/-- Python whitespace class `\s` (ASCII fragment, as in `str.strip()`). -/
def isPyWs (c : Char) : Bool :=
  c = ' ' || c = '\t' || c = '\n' || c = '\r' || c = '\x0b' || c = '\x0c'

/-- ASCII uppercase letter. -/
def isAsciiUpper (c : Char) : Bool := 'A' ≤ c && c ≤ 'Z'

/-- ASCII lowercase letter. -/
def isAsciiLower (c : Char) : Bool := 'a' ≤ c && c ≤ 'z'

/-- ASCII letter; with `re.IGNORECASE` the class `[A-Z]` matches these. -/
def isAsciiAlpha (c : Char) : Bool := isAsciiUpper c || isAsciiLower c

/-- ASCII digit, Python `\d` (ASCII fragment). -/
def isAsciiDigit (c : Char) : Bool := '0' ≤ c && c ≤ '9'

/-- Python word character `\w` (ASCII fragment): letter, digit or underscore. -/
def isWordChar (c : Char) : Bool := isAsciiAlpha c || isAsciiDigit c || c = '_'

/-- Lowercase an ASCII character, as Python `str.lower` does on ASCII. -/
def lowerC (c : Char) : Char :=
  if isAsciiUpper c then Char.ofNat (c.toNat + 32) else c

/-- Case-insensitive character comparison (`re.IGNORECASE`). -/
def ciEq (a b : Char) : Bool := lowerC a = lowerC b

/-- Does `l` start with pattern `pat`, comparing case-insensitively? -/
def ciStartsWith : List Char → List Char → Bool
  | [], _ => true
  | _ :: _, [] => false
  | p :: ps, c :: cs => ciEq p c && ciStartsWith ps cs

/-- A `\b` boundary just before a word character, given the previous
character of the original string (`none` at the start of the string). -/
def wordBoundaryBefore : Option Char → Bool
  | none => true
  | some p => !isWordChar p

/-- A `\b` boundary just after a word character: the rest of the string
is empty or starts with a non-word character. -/
def endBoundary (rest : List Char) : Bool :=
  match rest.head? with
  | none => true
  | some c => !isWordChar c

/-- A matcher for one concrete pattern: given the character preceding the
current position (for `\b`) and the remaining original text, return the
replacement text and the number of original characters consumed. -/
def Matcher : Type := Option Char → List Char → Option (List Char × Nat)

/-- Leftmost, non-overlapping, left-to-right scan-and-substitute, the
semantics of `re.sub` for the patterns used here.  The `fuel` argument
makes the recursion structural; every matcher consumes at least one
character, so `fuel = l.length` suffices. -/
def scanSubFuel (m : Matcher) : Nat → Option Char → List Char → List Char
  | 0, _, l => l
  | _ + 1, _, [] => []
  | fuel + 1, prev, c :: cs =>
    match m prev (c :: cs) with
    | some (r, k) =>
      r ++ scanSubFuel m fuel (((c :: cs).take k).getLast?) (cs.drop (k - 1))
    | none => c :: scanSubFuel m fuel (some c) cs

/-- One full substitution pass (`re.sub(pattern, repl, text)`). -/
def pySub (m : Matcher) (l : List Char) : List Char :=
  scanSubFuel m l.length none l

/-- Drop trailing Python whitespace. -/
def dropTrailWs (l : List Char) : List Char :=
  (l.reverse.dropWhile isPyWs).reverse

/-- Python `str.strip()` on character lists (ASCII whitespace fragment). -/
def pyStripL (l : List Char) : List Char :=
  dropTrailWs (l.dropWhile isPyWs)

/-- Python `str.strip()` on strings. -/
def pyStrip (s : String) : String := String.mk (pyStripL s.toList)

/-- Matcher for `(CONTRACT)\s*FOR` (IGNORECASE), replacement
`"CONTRACT FOR"`: the word CONTRACT, any run of whitespace, then FOR. -/
def mContractFor : Matcher := fun _ l =>
  if ciStartsWith ("CONTRACT".toList) l then
    let rest := l.drop 8
    let w := (rest.takeWhile isPyWs).length
    if ciStartsWith ("FOR".toList) (rest.drop w) then
      some (("CONTRACT FOR".toList), 8 + w + 3)
    else none
  else none

/-- Matcher for `(CONTRACT FOR)([A-Z])` (IGNORECASE), replacement
`\1: \2`.  Under IGNORECASE the class `[A-Z]` matches letters of either
case; group 1 is kept with its original characters. -/
def mContractForColon : Matcher := fun _ l =>
  if ciStartsWith ("CONTRACT FOR".toList) l then
    match (l.drop 12).head? with
    | some c => if isAsciiAlpha c then some (l.take 12 ++ (": ".toList) ++ [c], 13) else none
    | none => none
  else none

/-- Matcher for `\bJN\b` (IGNORECASE), replacement `" Job Number "`. -/
def mJN : Matcher := fun prev l =>
  if wordBoundaryBefore prev && ciStartsWith ("JN".toList) l && endBoundary (l.drop 2) then
    some ((" Job Number ".toList), 2)
  else none

/-- Matcher for `\bDATE\b` (IGNORECASE), replacement `" Date "`. -/
def mDate : Matcher := fun prev l =>
  if wordBoundaryBefore prev && ciStartsWith ("DATE".toList) l && endBoundary (l.drop 4) then
    some ((" Date ".toList), 4)
  else none

/-- Matcher for `TITLE SHEET|DRAWING|SHEET|TITLE|DESIGN` (IGNORECASE),
replacement empty; alternatives are tried in the pattern's order. -/
def mNoise : Matcher := fun _ l =>
  if ciStartsWith ("TITLE SHEET".toList) l then some ([], 11)
  else if ciStartsWith ("DRAWING".toList) l then some ([], 7)
  else if ciStartsWith ("SHEET".toList) l then some ([], 5)
  else if ciStartsWith ("TITLE".toList) l then some ([], 5)
  else if ciStartsWith ("DESIGN".toList) l then some ([], 6)
  else none

/-- Match `\s+of\s+\d{5}` (IGNORECASE) at the head of `l`, returning the
number of characters consumed.  The whitespace runs are forced to be
maximal since neither `of` nor a digit is whitespace. -/
def matchOf5 (l : List Char) : Option Nat :=
  let w1 := (l.takeWhile isPyWs).length
  if w1 = 0 then none
  else
    let r1 := l.drop w1
    if ciStartsWith ("of".toList) r1 then
      let r2 := r1.drop 2
      let w2 := (r2.takeWhile isPyWs).length
      if w2 = 0 then none
      else
        let r3 := r2.drop w2
        if (r3.take 5).length = 5 && (r3.take 5).all isAsciiDigit then
          some (w1 + 2 + w2 + 5)
        else none
    else none

/-- Backtracking for `-\d{1,5}(?:\s+of\s+\d{5})?` followed by the final
`\b`, applied to the text after the hyphen: try the greedy count of
digits first, then shorter counts, as the regex engine does.  Returns
the characters consumed after the hyphen. -/
def mStructDigits (rest2 : List Char) : Nat → Option Nat
  | 0 => none
  | n + 1 =>
    if (rest2.take (n + 1)).length = n + 1 && (rest2.take (n + 1)).all isAsciiDigit then
      let after := rest2.drop (n + 1)
      match matchOf5 after with
      | some k =>
        if endBoundary (after.drop k) then some (n + 1 + k)
        else if endBoundary after then some (n + 1)
        else mStructDigits rest2 n
      | none => if endBoundary after then some (n + 1) else mStructDigits rest2 n
    else mStructDigits rest2 n

/-- Matcher for the structure-number pattern
`\b[A-Z]\d{2}(?:-\d{1,5}(?:\s+of\s+\d{5})?|\s+of\s+\d{5})\b`
(IGNORECASE), replacement empty. -/
def mStructNum : Matcher := fun prev l =>
  if wordBoundaryBefore prev then
    match l with
    | c1 :: c2 :: c3 :: rest =>
      if isAsciiAlpha c1 && isAsciiDigit c2 && isAsciiDigit c3 then
        let altA : Option Nat :=
          match rest with
          | '-' :: rest2 => (mStructDigits rest2 5).map (fun k => 1 + k)
          | _ => none
        let k? : Option Nat :=
          match altA with
          | some k => some k
          | none =>
            match matchOf5 rest with
            | some k => if endBoundary (rest.drop k) then some k else none
            | none => none
        k?.map (fun k => (([] : List Char), 3 + k))
      else none
    | _ => none
  else none

/-- Matcher for `\s{2,}`, replacement a single space; the run matched is
the maximal whitespace run (greedy). -/
def mWsRun : Matcher := fun _ l =>
  match l with
  | c1 :: c2 :: _ =>
    if isPyWs c1 && isPyWs c2 then some ([' '], (l.takeWhile isPyWs).length)
    else none
  | _ => none

/-- The normalizer `filter_target_section` from `tool.py`: the seven
`re.sub` passes in source order (innermost first), then `str.strip()`. -/
def filter_target_section (text : String) : String :=
  String.mk (pyStripL (pySub mWsRun (pySub mStructNum (pySub mNoise (pySub mDate
    (pySub mJN (pySub mContractForColon (pySub mContractFor text.toList))))))))

/-- Does `l` begin with `pat` (case-sensitive)? -/
def beginsWith : List Char → List Char → Bool
  | [], _ => true
  | _ :: _, [] => false
  | p :: ps, c :: cs => (p = c) && beginsWith ps cs

/-- Does `pat` occur as a contiguous substring of `l`? -/
def occursIn (pat : List Char) : List Char → Bool
  | [] => pat.isEmpty
  | c :: cs => beginsWith pat (c :: cs) || occursIn pat cs

/-- Plain (case-sensitive) substring test on strings. -/
def containsTok (pat s : String) : Bool :=
  occursIn pat.toList s.toList

/-- Case-insensitive substring test on strings. -/
def containsCI (pat s : String) : Bool :=
  occursIn (pat.toList.map lowerC) (s.toList.map lowerC)

/-- Crop region `(left, top, right, bottom)` in pixel coordinates. -/
def Region : Type := Int × Int × Int × Int

/-- One element of the list returned by `ocr_model.predict`; the field
records whether the dict has the key `rec_texts` and, if so, its list of
line-level recognized strings. -/
structure OcrRes where
  rec_texts : Option (List String)

/-- The value left in `full_text` by the loop
`for res in ocr_result: if "rec_texts" in res: full_text = ...`:
the joined lines of the last element carrying the key, if any. -/
def lastRecTexts : List OcrRes → Option (List String)
  | [] => none
  | r :: rs =>
    match lastRecTexts rs with
    | some ts => some ts
    | none => r.rec_texts

/-- The observable prints of `extract_title_text_from_pdf`, in order:
success of the direct path, entering the OCR fallback, and the print
immediately preceding the `ocr_model.predict` call. -/
inductive Ev where
  | directPrint
  | fallbackPrint
  | ocrPrint
deriving DecidableEq, Repr

/-- The fallible external steps of `extract_title_text_from_pdf`, over an
abstract image type `α`: PyMuPDF open/load/`get_text` (with optional
clip), `convert_from_path` rasterization, PIL `crop`, and
`ocr_model.predict`.  An `Except.error` is a raised exception whose
payload is `str(e)`. -/
structure PdfOps (α : Type) where
  getText : Option Region → Except String String
  rasterize : Except String (List α)
  crop : α → Region → Except String α
  ocr : α → Except String (List OcrRes)

/-- The test `if text and len(text.strip()) > 20` guarding the direct
return. -/
def directTextOK (text : String) : Bool :=
  (!(text = "")) && decide (20 < (pyStripL text.toList).length)

/-- The conditional crop `if region: img = img.crop(region)`. -/
def cropStep {α : Type} (ops : PdfOps α) (region : Option Region) (img : α) :
    Except String α :=
  match region with
  | some r => ops.crop img r
  | none => Except.ok img

/-- The body of the `try` block of `extract_title_text_from_pdf`, paired
with the prints emitted so far; an `Except.error` is an exception
reaching the `except` clause.  When the OCR result is non-empty but no
element has the key `rec_texts`, `return full_text` raises `NameError`,
whose `str` is the recorded message. -/
def extractCore {α : Type} (ops : PdfOps α) (region : Option Region) :
    Except String String × List Ev :=
  match ops.getText region with
  | Except.error e => (Except.error e, [])
  | Except.ok text =>
    if directTextOK text then (Except.ok text, [Ev.directPrint])
    else
      match ops.rasterize with
      | Except.error e => (Except.error e, [Ev.fallbackPrint])
      | Except.ok images =>
        match images with
        | [] => (Except.error ("list index out of range"), [Ev.fallbackPrint])
        | img :: _ =>
          match cropStep ops region img with
          | Except.error e => (Except.error e, [Ev.fallbackPrint])
          | Except.ok img2 =>
            match ops.ocr img2 with
            | Except.error e => (Except.error e, [Ev.fallbackPrint, Ev.ocrPrint])
            | Except.ok ocr_result =>
              if ocr_result.isEmpty then
                (Except.ok ("OCR processing returned no results."),
                  [Ev.fallbackPrint, Ev.ocrPrint])
              else
                match lastRecTexts ocr_result with
                | some ts =>
                  (Except.ok (String.intercalate ("\n") ts),
                    [Ev.fallbackPrint, Ev.ocrPrint])
                | none =>
                  (Except.error ("name \x27full_text\x27 is not defined"),
                    [Ev.fallbackPrint, Ev.ocrPrint])

/-- `extract_title_text_from_pdf` from `tool.py`: the `try` body with the
`except` clause converting any exception into the descriptive string
`"OCR extraction failed: " + str(e)`; paired with the prints emitted. -/
def extract_title_text_from_pdf {α : Type} (ops : PdfOps α)
    (region : Option Region) : String × List Ev :=
  match extractCore ops region with
  | (Except.ok t, evs) => (t, evs)
  | (Except.error e, evs) => ("OCR extraction failed: " ++ e, evs)

/-- The pydantic `BridgeWork` model from `main.py`. -/
structure BridgeWork where
  job_number : String
  proposed_work : List String
  date : String

/-- One row of the `results` list in `main.py`. -/
structure ResultRow where
  file_name : String
  job_number : String
  proposed_work : String
  date : String
deriving DecidableEq, Repr

/-- The test `filename.lower().endswith(".pdf")`. -/
def lowerEndsWithPdf (s : String) : Bool :=
  List.isSuffixOf (".pdf".toList) (s.toList.map lowerC)

/-- The per-document `try`/`except` body of the batch loop:
`agent_executor.invoke` followed by `parser.parse` is modelled as one
fallible call `invoke`; on success the row flattens the record
(`", ".join(proposed_work)`, `"".join(date)` = `date`), on an exception
`e` the row has empty `job_number` and `proposed_work` and
`date = f"Error: e"`. -/
def processOne (invoke : String → Except String BridgeWork)
    (filename : String) : ResultRow :=
  match invoke filename with
  | Except.ok r =>
    ⟨filename, r.job_number, String.intercalate (", ") r.proposed_work, r.date⟩
  | Except.error e =>
    ⟨filename, (""), (""), "Error: " ++ e⟩

/-- The batch loop of `main.py`: iterate over the directory listing,
skip non-`.pdf` names, and append one row per processed file to
`results`. -/
def batchLoop (invoke : String → Except String BridgeWork) :
    List String → List ResultRow → List ResultRow
  | [], results => results
  | f :: fs, results =>
    if lowerEndsWithPdf f then
      batchLoop invoke fs (results ++ [processOne invoke f])
    else
      batchLoop invoke fs results

/-- The whole batch run, starting from `results = []`. -/
def runBatch (invoke : String → Except String BridgeWork)
    (files : List String) : List ResultRow :=
  batchLoop invoke files []

/-- No two adjacent whitespace characters (the invariant produced by the
`\s{2,}` collapse). -/
def NoWsPair (a b : Char) : Prop := ¬(isPyWs a = true ∧ isPyWs b = true)

/-- Fixture: a document whose direct text layer is 21 characters. -/
def opsDirect : PdfOps Unit :=
  ⟨fun _ => Except.ok ("abcdefghijklmnopqrstu"), Except.ok [()],
    fun i _ => Except.ok i, fun _ => Except.ok []⟩

/-- Fixture: PDF open fails with an exception. -/
def opsOpenFail : PdfOps Unit :=
  ⟨fun _ => Except.error ("cannot open broken.pdf"), Except.ok [()],
    fun i _ => Except.ok i, fun _ => Except.ok []⟩

/-- Fixture: empty text layer; OCR yields two elements that both carry
`rec_texts`. -/
def opsTwoRec : PdfOps Unit :=
  ⟨fun _ => Except.ok (""), Except.ok [()], fun i _ => Except.ok i,
    fun _ => Except.ok [⟨some [("A")]⟩, ⟨some [("B")]⟩]⟩

/-- Fixture: empty text layer; OCR yields one element without `rec_texts`
and one with lines L1, L2. -/
def opsLastRec : PdfOps Unit :=
  ⟨fun _ => Except.ok (""), Except.ok [()], fun i _ => Except.ok i,
    fun _ => Except.ok [⟨none⟩, ⟨some [("L1"), ("L2")]⟩]⟩

/-- Fixture: empty text layer; OCR yields a non-empty result in which no
element carries `rec_texts`. -/
def opsNoRec : PdfOps Unit :=
  ⟨fun _ => Except.ok (""), Except.ok [()], fun i _ => Except.ok i,
    fun _ => Except.ok [⟨none⟩]⟩

/-- Fixture: a model invocation that always raises. -/
def invokeFail : String → Except String BridgeWork :=
  fun _ => Except.error ("boom")

end BridgePlans


namespace BridgePlans

theorem scanSubFuel_nil (m : Matcher) (fuel : Nat) (prev : Option Char) :
    scanSubFuel m fuel prev [] = [] := by
  cases fuel <;> rfl

theorem drop_length_takeWhile (p : Char → Bool) :
    ∀ l : List Char, l.drop ((l.takeWhile p).length) = l.dropWhile p
  | [] => rfl
  | c :: cs => by
    cases h : p c with
    | true =>
      simp [List.takeWhile_cons, List.dropWhile_cons, h, drop_length_takeWhile p cs]
    | false =>
      simp [List.takeWhile_cons, List.dropWhile_cons, h]

theorem head?_dropWhile_not (p : Char → Bool) :
    ∀ (l : List Char) (c : Char), (l.dropWhile p).head? = some c → p c = false
  | [], c => by simp [List.dropWhile]
  | a :: as, c => by
    cases h : p a with
    | true =>
      intro hh
      rw [List.dropWhile_cons, if_pos (by simp [h])] at hh
      exact head?_dropWhile_not p as c hh
    | false =>
      intro hh
      rw [List.dropWhile_cons, if_neg (by simp [h])] at hh
      simp at hh
      rw [← hh]
      exact h

theorem lastRecTexts_eq_none :
    ∀ res : List OcrRes, (∀ r ∈ res, r.rec_texts = none) → lastRecTexts res = none
  | [], _ => rfl
  | r :: rs, h => by
    have ih := lastRecTexts_eq_none rs (fun x hx => h x (List.mem_cons_of_mem r hx))
    simp [lastRecTexts, ih]
    exact h r (List.mem_cons_self r rs)

theorem batchLoop_eq (invoke : String → Except String BridgeWork) :
    ∀ (files : List String) (acc : List ResultRow),
      batchLoop invoke files acc =
        acc ++ (files.filter lowerEndsWithPdf).map (processOne invoke)
  | [], acc => by simp [batchLoop]
  | f :: fs, acc => by
    cases h : lowerEndsWithPdf f with
    | true =>
      simp [batchLoop, h, batchLoop_eq invoke fs, List.filter_cons]
    | false =>
      simp [batchLoop, h, batchLoop_eq invoke fs, List.filter_cons]

/-- C4 counterexample: `filter_target_section` is not idempotent.  On
"DRAWDRAWINGING" the single removal pass deletes the inner "DRAWING" and
splices the surrounding fragments into a new "DRAWING", which only a
second application removes. -/
theorem c4_counterexample :
    filter_target_section (filter_target_section ("DRAWDRAWINGING")) ≠
      filter_target_section ("DRAWDRAWINGING") := by
  decide

/-- C4 (amended): the normalizer is idempotent on the specification's
sample inputs ("B01-22222 JN 123456", "CONTRACTFORBRIDGEREPLACEMENT",
"JN 201222A CONTRACTFOR BRIDGE REPLACEMENT DATE 5/1/2024"), though not
on every string. -/
theorem c4_idempotent_on_samples :
    filter_target_section (filter_target_section ("B01-22222 JN 123456")) =
        filter_target_section ("B01-22222 JN 123456")
    ∧ filter_target_section (filter_target_section ("CONTRACTFORBRIDGEREPLACEMENT")) =
        filter_target_section ("CONTRACTFORBRIDGEREPLACEMENT")
    ∧ filter_target_section
          (filter_target_section ("JN 201222A CONTRACTFOR BRIDGE REPLACEMENT DATE 5/1/2024")) =
        filter_target_section ("JN 201222A CONTRACTFOR BRIDGE REPLACEMENT DATE 5/1/2024") := by
  exact ⟨by decide, by decide, by decide⟩

/-- C5 counterexample: the output of `filter_target_section` can contain
a boilerplate token.  On "SHSHEETEET" the single removal pass deletes the
inner "SHEET" and splices the fragments into a new "SHEET" that remains
in the output. -/
theorem c5_counterexample :
    containsCI ("SHEET") (filter_target_section ("SHSHEETEET")) = true := by
  decide

/-- C5 (amended): the boilerplate substitution is a single left-to-right
pass, so the output is free of the tokens "TITLE SHEET", "DRAWING",
"SHEET", "TITLE", "DESIGN" (case-insensitively) unless deletions splice a
new occurrence together; on the specification's sample inputs no token
remains. -/
theorem c5_no_boilerplate_on_samples :
    (([("TITLE SHEET"), ("DRAWING"), ("SHEET"), ("TITLE"), ("DESIGN")]).all (fun tok =>
        !containsCI tok (filter_target_section ("B01-22222 JN 123456"))
        && !containsCI tok (filter_target_section ("CONTRACTFORBRIDGEREPLACEMENT"))
        && !containsCI tok
            (filter_target_section ("JN 201222A CONTRACTFOR BRIDGE REPLACEMENT DATE 5/1/2024"))))
      = true := by
  decide

/-- C6 counterexample: the colon is inserted after "CONTRACT FOR" also
when the immediately following character is a lowercase letter, because
the substitution runs under IGNORECASE, so the claim's "exactly when that
character is an uppercase letter" is false. -/
theorem c6_counterexample :
    filter_target_section ("CONTRACT FORx") = ("CONTRACT FOR: x")
    ∧ ('x'.isUpper = false) := by
  exact ⟨by decide, by decide⟩

/-- C6 (amended): ": " is inserted between "CONTRACT FOR" and an
immediately following ASCII letter of either case (the substitution is
case-insensitive), and not before a non-letter; in particular the
spec's squished example gains the colon. -/
theorem c6_colon_insertion_cases :
    filter_target_section ("CONTRACTFORBRIDGEREPLACEMENT") = ("CONTRACT FOR: BRIDGEREPLACEMENT")
    ∧ filter_target_section ("CONTRACT FORy") = ("CONTRACT FOR: y")
    ∧ filter_target_section ("CONTRACT FOR1") = ("CONTRACT FOR1")
    ∧ filter_target_section ("CONTRACT FOR WORK") = ("CONTRACT FOR WORK") := by
  exact ⟨by decide, by decide, by decide, by decide⟩

/-- C8: on "B01-22222 JN 123456" the normalizer deletes the structure
number "B01-22222" and keeps the job number "123456". -/
theorem c8_structure_number_deletion :
    containsTok ("B01-22222") (filter_target_section ("B01-22222 JN 123456")) = false
    ∧ containsTok ("123456") (filter_target_section ("B01-22222 JN 123456")) = true := by
  exact ⟨by decide, by decide⟩

end BridgePlans

namespace BridgePlans

/-- C1: the batch loop is exception-isolated per document.  The run
produces exactly one `ResultRow` per `.pdf` file, in enumeration order
(it equals the map of the per-document handler over the filtered
listing), and whenever the model invocation or parse for a file raises
`e`, that file's row has empty `job_number` and `proposed_work` and its
`date` holds the exception description. -/
theorem c1_per_document_isolation (invoke : String → Except String BridgeWork)
    (files : List String) :
    runBatch invoke files = (files.filter lowerEndsWithPdf).map (processOne invoke)
    ∧ ∀ f e, invoke f = Except.error e →
        processOne invoke f = ⟨f, (""), (""), "Error: " ++ e⟩ := by
  constructor
  · simpa using batchLoop_eq invoke files []
  · intro f e h
    simp [processOne, h]

theorem c1_per_document_isolation_witness :
    processOne invokeFail ("a.pdf") = ⟨("a.pdf"), (""), (""), "Error: " ++ ("boom")⟩ :=
  (c1_per_document_isolation invokeFail [("a.pdf")]).2 ("a.pdf") ("boom") rfl

/-- C3: the extractor is total via error strings.  For every oracle and
region, either the `try` body succeeds and its value is returned, or the
raised exception `e` is caught and the returned text is exactly
"OCR extraction failed: " followed by the exception's description. -/
theorem c3_errors_become_strings {α : Type} (ops : PdfOps α)
    (region : Option Region) :
    (extractCore ops region).1 = Except.ok ((extract_title_text_from_pdf ops region).1)
    ∨ ∃ e, (extractCore ops region).1 = Except.error e
        ∧ (extract_title_text_from_pdf ops region).1 = "OCR extraction failed: " ++ e := by
  rcases h : extractCore ops region with ⟨r, evs⟩
  cases r with
  | ok t =>
    left
    simp [extract_title_text_from_pdf, h]
  | error e =>
    right
    exact ⟨e, by simp [h], by simp [extract_title_text_from_pdf, h]⟩

/-- C7 counterexample: with a non-empty OCR result whose two elements
both carry `rec_texts` (lines "A" then "B"), the function returns only
"B" — the joined lines of the last element — not the concatenation of
all line-level strings of the result, so lines are omitted. -/
theorem c7_counterexample :
    (extract_title_text_from_pdf opsTwoRec none).1 = ("B")
    ∧ (extract_title_text_from_pdf opsTwoRec none).1 ≠ ("A\nB") := by
  exact ⟨by decide, by decide⟩

/-- C7 (amended): when the fallback runs and the OCR call returns a
result in which some element carries `rec_texts`, the text returned is
the newline-join, in model order with no re-sorting, of the `rec_texts`
lines of the LAST such element; lines of earlier elements are
dropped. -/
theorem c7_last_rec_texts {α : Type} (ops : PdfOps α)
    (region : Option Region) (t : String) (img : α) (imgs : List α) (img2 : α)
    (res : List OcrRes) (ts : List String)
    (h1 : ops.getText region = Except.ok t)
    (h2 : directTextOK t = false)
    (h3 : ops.rasterize = Except.ok (img :: imgs))
    (h4 : cropStep ops region img = Except.ok img2)
    (h5 : ops.ocr img2 = Except.ok res)
    (h6 : lastRecTexts res = some ts) :
    (extract_title_text_from_pdf ops region).1 = String.intercalate ("\n") ts := by
  have hres : res.isEmpty = false := by
    cases res with
    | nil => simp [lastRecTexts] at h6
    | cons a l => rfl
  simp [extract_title_text_from_pdf, extractCore, h1, h2, h3, h4, h5, hres, h6]

theorem c7_last_rec_texts_witness :
    (extract_title_text_from_pdf opsLastRec none).1 =
      String.intercalate ("\n") [("L1"), ("L2")] :=
  c7_last_rec_texts opsLastRec none ("") () [] ()
    [⟨none⟩, ⟨some [("L1"), ("L2")]⟩] [("L1"), ("L2")] rfl rfl rfl rfl rfl rfl

/-- C10: when the fallback runs and the OCR call returns a non-empty
result in which no element carries the key `rec_texts`, the loop never
binds `full_text`, so `return full_text` raises `NameError`; the
exception is caught and the function returns the prefixed error string
rather than recognized text or an uncaught exception. -/
theorem c10_missing_rec_texts_caught {α : Type} (ops : PdfOps α)
    (region : Option Region) (t : String) (img : α) (imgs : List α) (img2 : α)
    (res : List OcrRes)
    (h1 : ops.getText region = Except.ok t)
    (h2 : directTextOK t = false)
    (h3 : ops.rasterize = Except.ok (img :: imgs))
    (h4 : cropStep ops region img = Except.ok img2)
    (h5 : ops.ocr img2 = Except.ok res)
    (h6 : res ≠ [])
    (h7 : ∀ r ∈ res, r.rec_texts = none) :
    extract_title_text_from_pdf ops region =
      ("OCR extraction failed: " ++ ("name \x27full_text\x27 is not defined"),
        [Ev.fallbackPrint, Ev.ocrPrint]) := by
  have hlast : lastRecTexts res = none := lastRecTexts_eq_none res h7
  have hres : res.isEmpty = false := by
    cases res with
    | nil => exact absurd rfl h6
    | cons a l => rfl
  simp [extract_title_text_from_pdf, extractCore, h1, h2, h3, h4, h5, hres, hlast]

theorem c10_missing_rec_texts_caught_witness :
    extract_title_text_from_pdf opsNoRec none =
      ("OCR extraction failed: " ++ ("name \x27full_text\x27 is not defined"),
        [Ev.fallbackPrint, Ev.ocrPrint]) :=
  c10_missing_rec_texts_caught opsNoRec none ("") () [] () [⟨none⟩] rfl rfl rfl rfl rfl
    (by simp)
    (by
      intro r hr
      rw [List.mem_singleton] at hr
      rw [hr])

end BridgePlans

namespace BridgePlans

/-- C2: threshold and fallback.  Given that direct extraction yields
text `t` (clipped to the region when one is given): if the stripped text
is strictly longer than 20 characters the extractor returns `t` with
only the direct-success print, so the OCR fallback path is never
entered; if the stripped text has 20 or fewer characters (in particular
if `t` is empty) the fallback path is entered and the direct-success
print never happens. -/
theorem c2_direct_threshold_and_fallback {α : Type} (ops : PdfOps α)
    (region : Option Region) (t : String)
    (h : ops.getText region = Except.ok t) :
    (20 < (pyStripL t.toList).length →
      extract_title_text_from_pdf ops region = (t, [Ev.directPrint]))
    ∧ ((pyStripL t.toList).length ≤ 20 →
      Ev.fallbackPrint ∈ (extract_title_text_from_pdf ops region).2
        ∧ Ev.directPrint ∉ (extract_title_text_from_pdf ops region).2) := by
  constructor
  · intro hl
    have ht : ¬(t = "") := by
      intro he
      rw [he] at hl
      simp [pyStripL, dropTrailWs] at hl
    have hok : directTextOK t = true := by
      simp [directTextOK, ht]
      exact hl
    simp [extract_title_text_from_pdf, extractCore, h, hok]
  · intro hl
    have hok : directTextOK t = false := by
      simp [directTextOK]
      intro _
      exact hl
    rcases hr : ops.rasterize with e | images
    · simp [extract_title_text_from_pdf, extractCore, h, hok, hr]
    · rcases images with _ | ⟨img, rest⟩
      · simp [extract_title_text_from_pdf, extractCore, h, hok, hr]
      · rcases hc : cropStep ops region img with e | img2
        · simp [extract_title_text_from_pdf, extractCore, h, hok, hr, hc]
        · rcases ho : ops.ocr img2 with e | res
          · simp [extract_title_text_from_pdf, extractCore, h, hok, hr, hc, ho]
          · cases hres : res.isEmpty with
            | true =>
              simp [extract_title_text_from_pdf, extractCore, h, hok, hr, hc, ho, hres]
            | false =>
              rcases hlast : lastRecTexts res with _ | ts
              · simp [extract_title_text_from_pdf, extractCore, h, hok, hr, hc, ho, hres,
                  hlast]
              · simp [extract_title_text_from_pdf, extractCore, h, hok, hr, hc, ho, hres,
                  hlast]

theorem c2_direct_threshold_and_fallback_witness :
    extract_title_text_from_pdf opsDirect none =
      (("abcdefghijklmnopqrstu"), [Ev.directPrint]) :=
  (c2_direct_threshold_and_fallback opsDirect none ("abcdefghijklmnopqrstu") rfl).1
    (by decide)

end BridgePlans

namespace BridgePlans

theorem toList_mk (l : List Char) : (String.mk l).toList = l := rfl

theorem mWsRun_eq_of_two (prev : Option Char) (a b : Char) (bs : List Char) :
    mWsRun prev (a :: b :: bs) =
      if isPyWs a && isPyWs b then
        some ([' '], ((a :: b :: bs).takeWhile isPyWs).length)
      else none := rfl

theorem scanSubFuel_wsRun_head :
    ∀ (fuel : Nat) (prev : Option Char) (l : List Char) (c : Char),
      (scanSubFuel mWsRun fuel prev l).head? = some c → isPyWs c = true →
      ∃ d, l.head? = some d ∧ isPyWs d = true
  | 0, _, l, c => fun h hc => ⟨c, h, hc⟩
  | _ + 1, _, [], c => by
    intro h _
    simp [scanSubFuel] at h
  | fuel + 1, prev, a :: as, c => by
    intro h hc
    cases as with
    | nil =>
      have hstep : scanSubFuel mWsRun (fuel + 1) prev [a] =
          a :: scanSubFuel mWsRun fuel (some a) [] := by
        simp [scanSubFuel, mWsRun]
      rw [hstep, scanSubFuel_nil] at h
      simp at h
      exact ⟨a, rfl, h ▸ hc⟩
    | cons b bs =>
      cases hw : isPyWs a && isPyWs b with
      | true =>
        have hstep : scanSubFuel mWsRun (fuel + 1) prev (a :: b :: bs) =
            ' ' :: scanSubFuel mWsRun fuel
              (((a :: b :: bs).take (((a :: b :: bs).takeWhile isPyWs).length)).getLast?)
              ((b :: bs).drop ((((a :: b :: bs).takeWhile isPyWs).length) - 1)) := by
          simp [scanSubFuel, mWsRun_eq_of_two, hw]
        rw [hstep] at h
        have hab : isPyWs a = true ∧ isPyWs b = true := by simpa using hw
        exact ⟨a, rfl, hab.1⟩
      | false =>
        have hstep : scanSubFuel mWsRun (fuel + 1) prev (a :: b :: bs) =
            a :: scanSubFuel mWsRun fuel (some a) (b :: bs) := by
          simp [scanSubFuel, mWsRun_eq_of_two, hw]
        rw [hstep] at h
        simp at h
        exact ⟨a, rfl, by rw [h]; exact hc⟩

theorem scanSubFuel_wsRun_chain :
    ∀ (fuel : Nat) (prev : Option Char) (l : List Char), l.length ≤ fuel →
      (scanSubFuel mWsRun fuel prev l).Chain' NoWsPair
  | 0, prev, l, h => by
    have hl : l = [] := List.length_eq_zero.mp (Nat.le_zero.mp h)
    subst hl
    rw [scanSubFuel_nil]
    exact List.chain'_nil
  | fuel + 1, prev, [], _ => by
    rw [scanSubFuel_nil]
    exact List.chain'_nil
  | fuel + 1, prev, a :: as, h => by
    cases as with
    | nil =>
      have hstep : scanSubFuel mWsRun (fuel + 1) prev [a] =
          a :: scanSubFuel mWsRun fuel (some a) [] := by
        simp [scanSubFuel, mWsRun]
      rw [hstep, scanSubFuel_nil]
      exact List.chain'_singleton a
    | cons b bs =>
      have hlen : (b :: bs).length ≤ fuel := by
        simp at h ⊢
        omega
      cases hw : isPyWs a && isPyWs b with
      | false =>
        have hstep : scanSubFuel mWsRun (fuel + 1) prev (a :: b :: bs) =
            a :: scanSubFuel mWsRun fuel (some a) (b :: bs) := by
          simp [scanSubFuel, mWsRun_eq_of_two, hw]
        rw [hstep, List.chain'_cons']
        refine ⟨?_, scanSubFuel_wsRun_chain fuel (some a) (b :: bs) hlen⟩
        intro y hy hcon
        obtain ⟨hwa, hwy⟩ := hcon
        obtain ⟨d, hd, hwd⟩ :=
          scanSubFuel_wsRun_head fuel (some a) (b :: bs) y (by simpa using hy) hwy
        simp at hd
        rw [← hd] at hwd
        simp [hwa, hwd] at hw
      | true =>
        have hab : isPyWs a = true ∧ isPyWs b = true := by simpa using hw
        obtain ⟨hwa, hwb⟩ := hab
        have hstep : scanSubFuel mWsRun (fuel + 1) prev (a :: b :: bs) =
            ' ' :: scanSubFuel mWsRun fuel
              (((a :: b :: bs).take (((a :: b :: bs).takeWhile isPyWs).length)).getLast?)
              ((b :: bs).drop ((((a :: b :: bs).takeWhile isPyWs).length) - 1)) := by
          simp [scanSubFuel, mWsRun_eq_of_two, hw]
        have hk : ((a :: b :: bs).takeWhile isPyWs).length =
            ((b :: bs).takeWhile isPyWs).length + 1 := by
          rw [List.takeWhile_cons]
          simp [hwa]
        have hrest : (b :: bs).drop ((((a :: b :: bs).takeWhile isPyWs).length) - 1) =
            (b :: bs).dropWhile isPyWs := by
          rw [hk]
          simp only [Nat.add_sub_cancel]
          exact drop_length_takeWhile isPyWs (b :: bs)
        rw [hstep, hrest, List.chain'_cons']
        constructor
        · intro y hy hcon
          obtain ⟨hws, hwy⟩ := hcon
          obtain ⟨d, hd, hwd⟩ :=
            scanSubFuel_wsRun_head fuel _ _ y (by simpa using hy) hwy
          have hnd := head?_dropWhile_not isPyWs (b :: bs) d hd
          rw [hnd] at hwd
          cases hwd
        · apply scanSubFuel_wsRun_chain fuel
          calc ((b :: bs).dropWhile isPyWs).length
              ≤ (b :: bs).length := (List.dropWhile_suffix isPyWs).length_le
            _ ≤ fuel := hlen

theorem pySub_wsRun_chain (l : List Char) : (pySub mWsRun l).Chain' NoWsPair := by
  simp only [pySub]
  exact scanSubFuel_wsRun_chain l.length none l le_rfl

theorem chain'_dropTrailWs (l : List Char) (h : l.Chain' NoWsPair) :
    (dropTrailWs l).Chain' NoWsPair := by
  rw [dropTrailWs, List.chain'_reverse]
  apply List.Chain'.suffix _ (List.dropWhile_suffix isPyWs)
  rw [List.chain'_reverse]
  exact h.imp (fun a b hab => hab)

theorem chain'_pyStripL (l : List Char) (h : l.Chain' NoWsPair) :
    (pyStripL l).Chain' NoWsPair :=
  chain'_dropTrailWs _ (h.suffix (List.dropWhile_suffix isPyWs))

theorem chain'_pyStripL_pySub_wsRun (l : List Char) :
    (pyStripL (pySub mWsRun l)).Chain' NoWsPair :=
  chain'_pyStripL _ (pySub_wsRun_chain l)

theorem dropTrailWs_isPrefixOf (l : List Char) : dropTrailWs l <+: l := by
  obtain ⟨t, ht⟩ := List.dropWhile_suffix (l := l.reverse) isPyWs
  refine ⟨t.reverse, ?_⟩
  rw [dropTrailWs, ← List.reverse_append, ht, List.reverse_reverse]

theorem pyStripL_last_not_ws (l : List Char) (c : Char)
    (h : (pyStripL l).getLast? = some c) : isPyWs c = false := by
  rw [pyStripL, dropTrailWs, List.getLast?_reverse] at h
  exact head?_dropWhile_not isPyWs _ c h

theorem pyStripL_head_not_ws (l : List Char) (c : Char)
    (h : (pyStripL l).head? = some c) : isPyWs c = false := by
  obtain ⟨t, ht⟩ := dropTrailWs_isPrefixOf (l.dropWhile isPyWs)
  have hh : (l.dropWhile isPyWs).head? = some c := by
    rw [← ht]
    rw [pyStripL] at h
    cases hp : dropTrailWs (l.dropWhile isPyWs) with
    | nil =>
      rw [hp] at h
      cases h
    | cons x xs =>
      rw [hp] at h
      simpa using h
  exact head?_dropWhile_not isPyWs l c hh

/-- C9: for every input string, the normalized output contains no two
consecutive space characters and has neither leading nor trailing
whitespace: the final `\s{2,} -> " "` collapse leaves no two adjacent
whitespace characters and `strip()` clears both ends. -/
theorem c9_no_double_space (x : String) :
    ¬ ([' ', ' '] <:+: (filter_target_section x).toList)
    ∧ (∀ c, (filter_target_section x).toList.head? = some c → isPyWs c = false)
    ∧ (∀ c, (filter_target_section x).toList.getLast? = some c → isPyWs c = false) := by
  have hrepr : (filter_target_section x).toList =
      pyStripL (pySub mWsRun (pySub mStructNum (pySub mNoise (pySub mDate
        (pySub mJN (pySub mContractForColon (pySub mContractFor x.toList))))))) := by
    simp only [filter_target_section, toList_mk]
  have hch : ((filter_target_section x).toList).Chain' NoWsPair := by
    rw [hrepr]
    exact chain'_pyStripL_pySub_wsRun _
  refine ⟨?_, ?_, ?_⟩
  · intro hinf
    have h2 := hch.infix hinf
    rw [List.chain'_pair] at h2
    exact h2 ⟨rfl, rfl⟩
  · intro c hc
    rw [hrepr] at hc
    exact pyStripL_head_not_ws _ c hc
  · intro c hc
    rw [hrepr] at hc
    exact pyStripL_last_not_ws _ c hc

theorem c9_no_double_space_witness : isPyWs 'a' = false :=
  (c9_no_double_space ("  ab  c   ")).2.1 'a' (by decide)

end BridgePlans
